import Mathlib

/-!
Verification of the condition/memory/query-assembly protocol and the
metric-aggregation pipeline of the computational-self-construction
experiment harness.

The Lean definitions below are shallow embeddings of the Python source:

* `MemoryManager` and its operations embed `src/core/memory.py`.
* `Condition` and the standard condition constants embed
  `src/core/conditions.py`.
* `assemblePrompt`, `runConditionCross` and `runConditionScaled` embed the
  query-assembly loops of `scripts/run_cross_architecture.py` and
  `scripts/run_scaled_pilot.py` (`run_condition` in each file).
* `count_words`, `analyze_condition` embed the aggregation layer of
  `scripts/analyze_pilot.py` (`PilotAnalyzer.count_words`,
  `PilotAnalyzer.analyze_condition`).
* `cohens_d_cross` and `cohens_d_tests` embed the two `cohens_d`
  implementations (`scripts/statistical_cross_arch.py` and
  `scripts/statistical_tests.py`).
* `mergeDataFiles` embeds `scripts/merge_data.py` (`merge_data_files`) and
  `verify_data_format` embeds `scripts/verify_data.py`.

Modelling conventions: Python floats are idealised as `ℚ` (or `ℝ` where a
square root occurs); a float operation whose result is `nan`/`inf` or a
raised exception (`ZeroDivisionError`, `StatisticsError`, `KeyError`,
an uncaught API error) is modelled with `Option`, `none` marking the
computation that has no well-defined result.  Wall-clock timestamps are
outside the embedding and are omitted from record structures.  Remote
model calls and `random` draws are environment inputs and are passed in
as explicit oracle functions.
-/

namespace SelfConstruction

/-! ## Memory manager (src/core/memory.py) -/

/-- One query/response pair as stored by `MemoryManager.add_exchange`:
the dictionary with keys `query_number`, `query`, `response`. -/
structure Exchange where
  query_number : Nat
  query : String
  response : String
deriving DecidableEq, Repr

/-- State of `MemoryManager`: the `persist` flag, the `history` list and
the `query_count` counter. -/
structure MemoryManager where
  persist : Bool
  history : List Exchange
  query_count : Nat
deriving DecidableEq, Repr

/-- `MemoryManager.__init__(persist)`: empty history, zero counter. -/
def mkMemoryManager (persist : Bool) : MemoryManager :=
  { persist := persist, history := [], query_count := 0 }

/-- `MemoryManager.add_exchange`: always increments `query_count`; appends
the exchange (carrying the incremented counter) only when `persist`. -/
def add_exchange (m : MemoryManager) (query response : String) : MemoryManager :=
  let qc := m.query_count + 1
  { m with
    query_count := qc,
    history :=
      if m.persist then m.history ++ [⟨qc, query, response⟩] else m.history }

/-- `MemoryManager.get_context`: the stored history when persisting,
otherwise the empty list. -/
def get_context (m : MemoryManager) : List Exchange :=
  if m.persist then m.history else []

/-- `MemoryManager.clear`: resets history and counter. -/
def clearMemory (m : MemoryManager) : MemoryManager :=
  { m with history := [], query_count := 0 }

/-- Result of `MemoryManager.get_summary_stats`. -/
structure MemorySummaryStats where
  total_queries : Nat
  stored_exchanges : Nat
  persistence_enabled : Bool
deriving DecidableEq, Repr

/-- `MemoryManager.get_summary_stats`. -/
def get_summary_stats (m : MemoryManager) : MemorySummaryStats :=
  { total_queries := m.query_count,
    stored_exchanges := m.history.length,
    persistence_enabled := m.persist }

/-- An operation performed on a `MemoryManager` after construction. -/
inductive MemOp where
  | add (query response : String)
  | clear
deriving DecidableEq, Repr

/-- Apply one operation to a manager. -/
def applyOp (m : MemoryManager) : MemOp → MemoryManager
  | .add q r => add_exchange m q r
  | .clear => clearMemory m

/-- Run a sequence of operations, in order, on a manager. -/
def runOps (m : MemoryManager) (ops : List MemOp) : MemoryManager :=
  ops.foldl applyOp m

/-- The query/response pairs added since the most recent `clear` (or since
the start when no `clear` occurred), in call order. -/
def addsSinceLastClear (ops : List MemOp) : List (String × String) :=
  ops.foldl
    (fun acc op =>
      match op with
      | .add q r => acc ++ [(q, r)]
      | .clear => [])
    []

/-- The history a persisting manager holds for the pairs `ps`, numbering
them `k+1`, `k+2`, ... in order. -/
def mkHist : Nat → List (String × String) → List Exchange
  | _, [] => []
  | k, (q, r) :: ps => ⟨k + 1, q, r⟩ :: mkHist (k + 1) ps

/-! ## Condition registry (src/core/conditions.py) -/

/-- The `Condition` dataclass: a name and four boolean flags. -/
structure Condition where
  name : String
  memory_persistence : Bool
  temporal_markers : Bool
  metacognitive_prompting : Bool
  self_framing : Bool
deriving DecidableEq, Repr

/-- The `BASELINE` condition constant. -/
def BASELINE : Condition :=
  { name := "baseline", memory_persistence := false, temporal_markers := false,
    metacognitive_prompting := false, self_framing := false }

/-- The `MEMORY_ONLY` condition constant. -/
def MEMORY_ONLY : Condition :=
  { name := "memory_only", memory_persistence := true, temporal_markers := false,
    metacognitive_prompting := false, self_framing := false }

/-- The `FULL_BASIC` condition constant. -/
def FULL_BASIC : Condition :=
  { name := "full_basic", memory_persistence := true, temporal_markers := true,
    metacognitive_prompting := false, self_framing := true }

/-- The `FULL_META` condition constant. -/
def FULL_META : Condition :=
  { name := "full_meta", memory_persistence := true, temporal_markers := true,
    metacognitive_prompting := true, self_framing := true }

/-! ## Query assembly and run orchestration
(scripts/run_cross_architecture.py and scripts/run_scaled_pilot.py)

Both `run_condition` functions assemble the prompt for query index `i`
with identical code: take `shuffled_prompts[i]`; when
`condition.temporal_markers` and `i > 0`, prepend the marker
`"[This is query i+1] "`; when `condition.metacognitive_prompting` and
`i % 5 == 4` and the configured metacognitive-prompt list is non-empty,
replace the prompt entirely with `random.choice` of that list.  The
shuffled pool, the condition-config contents and the `random.choice`
draw are environment inputs here: `shuffled` is the already shuffled
pool, `metacogPrompts` the configured list for the condition, and
`choose i l` the element drawn from `l` at query index `i`. -/

/-- Prompt assembly for query index `i`, shared verbatim by both
runner scripts. -/
def assemblePrompt (cond : Condition) (metacogPrompts : List String)
    (choose : Nat → List String → String) (shuffled : List String)
    (i : Nat) : String :=
  let prompt := shuffled.getD i ""
  let prompt :=
    if cond.temporal_markers = true ∧ 0 < i then
      "[This is query " ++ toString (i + 1) ++ "] " ++ prompt
    else prompt
  if cond.metacognitive_prompting = true ∧ i % 5 = 4 ∧ metacogPrompts ≠ [] then
    choose i metacogPrompts
  else prompt

/-- Environment oracle for one remote model: given the query index, the
prompt text and the optional context, it returns `some response` when the
vendor call succeeds and `none` when it raises. -/
def ModelOracle : Type :=
  Nat → String → Option (List Exchange) → Option String

/-- One result record of `run_cross_architecture.run_condition` (the
`timestamp` field, drawn from the wall clock, is outside the embedding). -/
structure CrossRecord where
  query_number : Nat
  prompt : String
  response : String
  condition : String
  model : String
deriving DecidableEq, Repr

/-- One result record of `run_scaled_pilot.run_condition`; note that this
script stores no `model` field (and its wall-clock `timestamp` is outside
the embedding). -/
structure ScaledRecord where
  query_number : Nat
  prompt : String
  response : String
  condition : String
deriving DecidableEq, Repr

/-- Memory state entering the numbered-query loop of
`run_cross_architecture.run_condition`: with `self_framing`, the framing
query is attempted and, on success, recorded as the placeholder exchange
`"[Acknowledged]"`; a framing failure is caught, logged and the run
continues without it. -/
def initialMemoryCross (cond : Condition) (initialPrompt : String)
    (framingResp : Option String) : MemoryManager :=
  if cond.self_framing then
    match framingResp with
    | some _ =>
        add_exchange (mkMemoryManager cond.memory_persistence) initialPrompt
          "[Acknowledged]"
    | none => mkMemoryManager cond.memory_persistence
  else mkMemoryManager cond.memory_persistence

/-- Memory state entering the numbered-query loop of
`run_scaled_pilot.run_condition`: same framing step, but there is no
`try/except`, so a framing failure propagates and aborts the run. -/
def initialMemoryScaled (cond : Condition) (initialPrompt : String)
    (framingResp : Option String) : Option MemoryManager :=
  if cond.self_framing then
    match framingResp with
    | some _ =>
        some (add_exchange (mkMemoryManager cond.memory_persistence)
          initialPrompt "[Acknowledged]")
    | none => none
  else some (mkMemoryManager cond.memory_persistence)

/-- The numbered-query loop of `run_cross_architecture.run_condition`,
written recursively over the remaining query count; `i` is the current
index.  Each iteration assembles the prompt, fetches context only under
`memory_persistence`, and calls the model inside `try/except`: on success
a record is appended and memory updated, on failure the error is logged
and the loop continues.  Returns (records, successes, failures). -/
def runCrossAux (model : ModelOracle) (cond : Condition)
    (metacogPrompts : List String) (choose : Nat → List String → String)
    (shuffled : List String) (modelName : String) :
    Nat → MemoryManager → Nat → List CrossRecord × Nat × Nat
  | _, _, 0 => ([], 0, 0)
  | i, mem, fuel + 1 =>
    let prompt := assemblePrompt cond metacogPrompts choose shuffled i
    let ctx := if cond.memory_persistence then some (get_context mem) else none
    match model i prompt ctx with
    | some resp =>
      let rest := runCrossAux model cond metacogPrompts choose shuffled
        modelName (i + 1) (add_exchange mem prompt resp) fuel
      (⟨i + 1, prompt, resp, cond.name, modelName⟩ :: rest.1,
        rest.2.1 + 1, rest.2.2)
    | none =>
      let rest := runCrossAux model cond metacogPrompts choose shuffled
        modelName (i + 1) mem fuel
      (rest.1, rest.2.1, rest.2.2 + 1)

/-- `run_cross_architecture.run_condition` for one (model, condition)
cell: framing step, then the numbered-query loop from index 0. -/
def runConditionCross (model : ModelOracle) (cond : Condition)
    (initialPrompt : String) (metacogPrompts : List String)
    (choose : Nat → List String → String) (shuffled : List String)
    (modelName : String) (framingResp : Option String) (n : Nat) :
    List CrossRecord × Nat × Nat :=
  runCrossAux model cond metacogPrompts choose shuffled modelName 0
    (initialMemoryCross cond initialPrompt framingResp) n

/-- The numbered-query loop of `run_scaled_pilot.run_condition`: the same
loop body but with no `try/except` around the model call, so a failure
propagates and the whole run aborts (`none`). -/
def runScaledAux (model : ModelOracle) (cond : Condition)
    (metacogPrompts : List String) (choose : Nat → List String → String)
    (shuffled : List String) :
    Nat → MemoryManager → Nat → Option (List ScaledRecord)
  | _, _, 0 => some []
  | i, mem, fuel + 1 =>
    let prompt := assemblePrompt cond metacogPrompts choose shuffled i
    let ctx := if cond.memory_persistence then some (get_context mem) else none
    match model i prompt ctx with
    | some resp =>
      (runScaledAux model cond metacogPrompts choose shuffled (i + 1)
          (add_exchange mem prompt resp) fuel).map
        (fun rest => ⟨i + 1, prompt, resp, cond.name⟩ :: rest)
    | none => none

/-- `run_scaled_pilot.run_condition` for one condition: framing step
(which itself aborts the run on failure), then the unprotected
numbered-query loop from index 0. -/
def runConditionScaled (model : ModelOracle) (cond : Condition)
    (initialPrompt : String) (metacogPrompts : List String)
    (choose : Nat → List String → String) (shuffled : List String)
    (framingResp : Option String) (n : Nat) : Option (List ScaledRecord) := do
  let mem ← initialMemoryScaled cond initialPrompt framingResp
  runScaledAux model cond metacogPrompts choose shuffled 0 mem n

/-! ## Descriptive statistics and the two Cohen effect-size functions
(scripts/statistical_cross_arch.py and scripts/statistical_tests.py)

Sample values are idealised as rationals.  `np.mean` is the arithmetic
mean, `np.var(-, ddof=1)` the sample variance.  A float computation that
yields `nan` or `inf` (variance of fewer than two samples, division by a
zero standard deviation) is modelled as `none`. -/

/-- Arithmetic mean (`np.mean` / `statistics.mean` on a non-empty list;
callers guard emptiness where the source can raise). -/
def listMean (l : List ℚ) : ℚ := l.sum / l.length

/-- Sample variance with `ddof = 1` (`np.var(l, ddof=1)`), as the exact
rational value; meaningful for lists of length at least 2. -/
def svar (l : List ℚ) : ℚ :=
  (l.map (fun x => (x - listMean l) ^ 2)).sum / ((l.length : ℚ) - 1)

/-- Pooled variance `((n1-1)*var1 + (n2-1)*var2) / (n1+n2-2)`; the square
root of this is the pooled standard deviation of both source files. -/
def pooledVar (a b : List ℚ) : ℚ :=
  (((a.length : ℚ) - 1) * svar a + ((b.length : ℚ) - 1) * svar b) /
    ((a.length : ℚ) + (b.length : ℚ) - 2)

/-- `np.var(l, ddof=1)` as a float: `nan` (here `none`) when the list has
fewer than two elements, else the sample variance. -/
def svarFloat (l : List ℚ) : Option ℚ :=
  if l.length < 2 then none else some (svar l)

/-- The pooled variance as computed with float semantics: undefined as
soon as either sample variance is (then the denominator `n1+n2-2` is
positive, so no further fault can occur). -/
def pooledVarFloat (a b : List ℚ) : Option ℚ := do
  let v1 ← svarFloat a
  let v2 ← svarFloat b
  some ((((a.length : ℚ) - 1) * v1 + ((b.length : ℚ) - 1) * v2) /
    ((a.length : ℚ) + (b.length : ℚ) - 2))

/-- Float division: `x / 0` is `inf` or `nan`, i.e. no real result. -/
noncomputable def floatDiv (x y : ℝ) : Option ℝ :=
  if y = 0 then none else some (x / y)

/-- `cohens_d` of `scripts/statistical_cross_arch.py`: returns 0 when
either group has fewer than 2 samples, or when the pooled standard
deviation is 0; otherwise the pooled-SD standardized mean difference. -/
noncomputable def cohens_d_cross (a b : List ℚ) : ℝ :=
  if a.length < 2 ∨ b.length < 2 then 0
  else if Real.sqrt (pooledVar a b) = 0 then 0
  else (((listMean a : ℚ) : ℝ) - ((listMean b : ℚ) : ℝ)) /
    Real.sqrt (pooledVar a b)

/-- `cohens_d` of `scripts/statistical_tests.py`: no guards — the sample
variances, the pooled standard deviation and the final division are
computed directly, so groups of fewer than 2 samples or a zero pooled
standard deviation yield `nan`/`inf` (`none`). -/
noncomputable def cohens_d_tests (a b : List ℚ) : Option ℝ := do
  let pv ← pooledVarFloat a b
  floatDiv (((listMean a : ℚ) : ℝ) - ((listMean b : ℚ) : ℝ))
    (Real.sqrt (pv : ℝ))

/-! ## Metric extraction and aggregation (scripts/analyze_pilot.py) -/

/-- Helper for `count_words`: counts the maximal whitespace-free runs in
a character list; the flag records whether the previous character was a
non-whitespace (word) character. -/
def countWordsAux : Bool → List Char → Nat
  | _, [] => 0
  | inWord, c :: cs =>
    if c.isWhitespace then countWordsAux false cs
    else if inWord then countWordsAux true cs
    else 1 + countWordsAux true cs

/-- `PilotAnalyzer.count_words`: `len(text.split())` — split on runs of
whitespace, discard empty fragments, count tokens; equivalently, the
number of maximal non-whitespace runs in the text. -/
def count_words (text : String) : Nat :=
  countWordsAux false text.data

/-- The metric dictionary produced by `PilotAnalyzer.analyze_response`
for one result record: `word_count` is `count_words` of the response
text and the four pattern fields are the regex counts (non-negative
integers). -/
structure Metric where
  query_number : Nat
  condition : String
  word_count : Nat
  self_references : Nat
  metacognitive : Nat
  temporal : Nat
  autobiographical : Nat
deriving DecidableEq, Repr

/-- `statistics.mean`, which raises `StatisticsError` on an empty list. -/
def meanFloat (l : List ℚ) : Option ℚ :=
  if l = [] then none else some (listMean l)

/-- One rate entry `count / word_count * 100`; Python integer division
raises `ZeroDivisionError` when `word_count` is 0. -/
def rateFloat (count wc : Nat) : Option ℚ :=
  if wc = 0 then none else some ((count : ℚ) / (wc : ℚ) * 100)

/-- The list of per-record rates for one pattern field, as built by the
list comprehensions in `analyze_condition`, evaluated left to right:
undefined as soon as any record has `word_count = 0`. -/
def ratesFloat (f : Metric → Nat) : List Metric → Option (List ℚ)
  | [] => some []
  | m :: ms => do
    let r ← rateFloat (f m) m.word_count
    let rs ← ratesFloat f ms
    some (r :: rs)

/-- The summary dictionary of `PilotAnalyzer.analyze_condition`.  The
source stores `statistics.stdev` values; since `stdev` is the square
root of the sample variance and is guarded by `if n > 1 else 0`, the
`_sd_sq` fields here hold the squares (the variances) of the stored
values, keeping the structure computable without changing when the
computation succeeds. -/
structure ConditionSummary where
  n : Nat
  word_count_mean : ℚ
  word_count_sd_sq : ℚ
  self_ref_mean : ℚ
  self_ref_sd_sq : ℚ
  self_ref_rate : ℚ
  metacog_mean : ℚ
  metacog_sd_sq : ℚ
  metacog_rate : ℚ
  temporal_mean : ℚ
  temporal_sd_sq : ℚ
  temporal_rate : ℚ
  autobio_mean : ℚ
  autobio_sd_sq : ℚ
  autobio_rate : ℚ
  raw_metrics : List Metric
deriving DecidableEq, Repr

/-- `PilotAnalyzer.analyze_condition`: aggregates the metric dictionaries
of one condition.  Every mean is `statistics.mean` (fails on an empty
group) and every rate list divides by each record word count with no
guard (fails when any record has `word_count = 0`). -/
def analyze_condition (ms : List Metric) : Option ConditionSummary := do
  let n := ms.length
  let wcMean ← meanFloat (ms.map (fun m => (m.word_count : ℚ)))
  let srMean ← meanFloat (ms.map (fun m => (m.self_references : ℚ)))
  let srRates ← ratesFloat (fun m => m.self_references) ms
  let srRate ← meanFloat srRates
  let mcMean ← meanFloat (ms.map (fun m => (m.metacognitive : ℚ)))
  let mcRates ← ratesFloat (fun m => m.metacognitive) ms
  let mcRate ← meanFloat mcRates
  let tMean ← meanFloat (ms.map (fun m => (m.temporal : ℚ)))
  let tRates ← ratesFloat (fun m => m.temporal) ms
  let tRate ← meanFloat tRates
  let aMean ← meanFloat (ms.map (fun m => (m.autobiographical : ℚ)))
  let aRates ← ratesFloat (fun m => m.autobiographical) ms
  let aRate ← meanFloat aRates
  some
    { n := n,
      word_count_mean := wcMean,
      word_count_sd_sq :=
        if 1 < n then svar (ms.map (fun m => (m.word_count : ℚ))) else 0,
      self_ref_mean := srMean,
      self_ref_sd_sq :=
        if 1 < n then svar (ms.map (fun m => (m.self_references : ℚ))) else 0,
      self_ref_rate := srRate,
      metacog_mean := mcMean,
      metacog_sd_sq :=
        if 1 < n then svar (ms.map (fun m => (m.metacognitive : ℚ))) else 0,
      metacog_rate := mcRate,
      temporal_mean := tMean,
      temporal_sd_sq :=
        if 1 < n then svar (ms.map (fun m => (m.temporal : ℚ))) else 0,
      temporal_rate := tRate,
      autobio_mean := aMean,
      autobio_sd_sq :=
        if 1 < n then svar (ms.map (fun m => (m.autobiographical : ℚ))) else 0,
      autobio_rate := aRate,
      raw_metrics := ms }

/-- The metric dictionary of a record with an empty response text: all
pattern counts are 0 and `word_count = count_words ""` (= 0). -/
def metricEmptyResponse : Metric :=
  { query_number := 1, condition := "baseline",
    word_count := count_words "", self_references := 0, metacognitive := 0,
    temporal := 0, autobiographical := 0 }

/-- A metric dictionary for an ordinary two-word response. -/
def metricTwoWords : Metric :=
  { query_number := 2, condition := "baseline",
    word_count := count_words "hello world", self_references := 0,
    metacognitive := 0, temporal := 0, autobiographical := 0 }

/-! ## Result-file records, merge and verification
(scripts/merge_data.py and scripts/verify_data.py)

A record loaded from a JSON result file may be missing fields; each
field is `none` when the key is absent.  Accessing an absent key with
`record[key]` raises `KeyError` (modelled `none` at the operation
level); `record.get(key)` returns a default instead. -/

/-- A loaded result record with optional fields. -/
structure RawRecord where
  query_number : Option Int
  prompt : Option String
  response : Option String
  condition : Option String
  model : Option String
  timestamp : Option String
deriving DecidableEq, Repr

/-- The missing required fields of a record, in the order of the
`required_fields` list of both scripts. -/
def missingOf (r : RawRecord) : List String :=
  (if r.query_number.isSome then [] else [ "query_number" ]) ++
  (if r.prompt.isSome then [] else [ "prompt" ]) ++
  (if r.response.isSome then [] else [ "response" ]) ++
  (if r.condition.isSome then [] else [ "condition" ]) ++
  (if r.model.isSome then [] else [ "model" ]) ++
  (if r.timestamp.isSome then [] else [ "timestamp" ])

/-- The (model, condition) cells occurring in a record list, in first
occurrence order — the key order of the Python dict built by iterating
the records. -/
def cellsOf (l : List RawRecord) : List (String × String) :=
  (l.filterMap (fun r =>
    match r.model, r.condition with
    | some m, some c => some (m, c)
    | _, _ => none)).eraseDups

/-- The number of records of a given (model, condition) cell. -/
def cellCount (l : List RawRecord) (m c : String) : Nat :=
  (l.filter (fun r => r.model = some m ∧ r.condition = some c)).length

/-- `merge_data.merge_data_files`: concatenates the two record arrays
(first file then second), reports counts, and flags every
(model, condition) cell whose combined count differs from the expected
20.  The per-model and per-cell counting uses `record[key]` accesses, so
a record without `model` or `condition` makes the operation fail before
the combined file is written. -/
def mergeDataFiles (d1 d2 : List RawRecord) :
    Option (List RawRecord × List (String × String)) :=
  let combined := d1 ++ d2
  if combined.all (fun r => r.model.isSome ∧ r.condition.isSome) then
    some (combined,
      (cellsOf combined).filter
        (fun mc => cellCount combined mc.1 mc.2 ≠ 20))
  else none

/-- Outcome of `verify_data.verify_data_format`: either the early
`False` return on a failed required-field check (with the offending
record indexes and their missing fields), or the final report with the
number of empty responses, the flagged sample-size cells and the printed
verdict. -/
inductive VerifyOutcome where
  | formatError (issues : List (Nat × List String))
  | report (emptyResponses : Nat)
      (cellWarnings : List (String × String × Nat)) (ok : Bool)
deriving DecidableEq, Repr

/-- The empty-response test of `verify_data_format`:
`not record.get(response)` is true for a missing or empty response, and
otherwise the stripped text is empty exactly when every character is
whitespace. -/
def isEmptyResponse (r : RawRecord) : Bool :=
  match r.response with
  | none => true
  | some s => s.data.all Char.isWhitespace

/-- `verify_data.verify_data_format`: checks required fields on the
first 5 records only (`data[:5]`), returning early on a failure; then
(value checks are print-only) counts the cell sizes via `record[key]`
accesses (failing on a record without `model`/`condition`), flags every
cell whose size differs from 20 as a warning, counts empty responses
over all records, and declares the verdict `all_good and
empty_responses == 0` — the cell warnings do not enter the verdict. -/
def verify_data_format (data : List RawRecord) : Option VerifyOutcome :=
  let issues := (data.take 5).enum.filterMap
    (fun p => if missingOf p.2 = [] then none else some (p.1, missingOf p.2))
  if issues = [] then
    if data.all (fun r => r.model.isSome ∧ r.condition.isSome) then
      let warns := (cellsOf data).filterMap
        (fun mc =>
          if cellCount data mc.1 mc.2 = 20 then none
          else some (mc.1, mc.2, cellCount data mc.1 mc.2))
      let empt := (data.filter isEmptyResponse).length
      some (.report empt warns (empt == 0))
    else none
  else some (.formatError issues)

/-- A record with all six required fields present. -/
def fullRecord (m c : String) : RawRecord :=
  { query_number := some 1, prompt := some "p", response := some "r",
    condition := some c, model := some m, timestamp := some "t" }

/-- First file of the merge scenario: 20 (ModelA, baseline) records and
18 (ModelA, full_meta) records. -/
def scenarioFile1 : List RawRecord :=
  List.replicate 20 (fullRecord "ModelA" "baseline") ++
    List.replicate 18 (fullRecord "ModelA" "full_meta")

/-- Second file of the merge scenario: 20 records per cell for ModelB. -/
def scenarioFile2 : List RawRecord :=
  List.replicate 20 (fullRecord "ModelB" "baseline") ++
    List.replicate 20 (fullRecord "ModelB" "full_meta")

/-- A record missing exactly the `timestamp` field. -/
def recMissingTimestamp : RawRecord :=
  { query_number := some 6, prompt := some "p", response := some "r",
    condition := some "c", model := some "m", timestamp := none }

/-- A six-record file whose sixth record (index 5) is missing the
`timestamp` field: past the `data[:5]` window of the field check. -/
def verifyScenario : List RawRecord :=
  List.replicate 5 (fullRecord "m" "c") ++ [recMissingTimestamp]

end SelfConstruction

namespace SelfConstruction

lemma mkHist_append (k : Nat) (ps : List (String × String)) (q r : String) :
    mkHist k (ps ++ [(q, r)]) = mkHist k ps ++ [⟨k + ps.length + 1, q, r⟩] := by
  induction ps generalizing k with
  | nil => simp [mkHist]
  | cons p ps ih =>
    obtain ⟨pq, pr⟩ := p
    simp [mkHist, ih (k + 1)]
    omega

lemma mkHist_length (k : Nat) (ps : List (String × String)) :
    (mkHist k ps).length = ps.length := by
  induction ps generalizing k with
  | nil => rfl
  | cons p ps ih =>
    obtain ⟨pq, pr⟩ := p
    simp [mkHist, ih (k + 1)]

lemma mkHist_map_query_number (k : Nat) (ps : List (String × String)) :
    (mkHist k ps).map (fun e => e.query_number) =
      List.range' (k + 1) ps.length := by
  induction ps generalizing k with
  | nil => rfl
  | cons p ps ih =>
    obtain ⟨pq, pr⟩ := p
    simp [mkHist, List.range', ih (k + 1)]

/-- Invariant for a persisting manager: running any operation sequence
from a state that stores exactly the numbered pairs `ps` yields the state
storing exactly the fold of the operations over `ps`. -/
lemma runOps_persist_spec (ops : List MemOp) :
    ∀ (ps : List (String × String)) (m : MemoryManager),
      m.persist = true → m.history = mkHist 0 ps → m.query_count = ps.length →
      (runOps m ops).persist = true ∧
      (runOps m ops).history =
        mkHist 0 (ops.foldl
          (fun acc op =>
            match op with
            | .add q r => acc ++ [(q, r)]
            | .clear => []) ps) ∧
      (runOps m ops).query_count =
        (ops.foldl
          (fun acc op =>
            match op with
            | .add q r => acc ++ [(q, r)]
            | .clear => []) ps).length := by
  induction ops with
  | nil => intro ps m hp hh hq; exact ⟨hp, hh, hq⟩
  | cons op ops ih =>
    intro ps m hp hh hq
    cases op with
    | add q r =>
      have hstep :
          applyOp m (.add q r) =
            { m with
              query_count := m.query_count + 1,
              history := m.history ++ [⟨m.query_count + 1, q, r⟩] } := by
        simp [applyOp, add_exchange, hp]
      have h1 : (applyOp m (.add q r)).persist = true := by
        rw [hstep]; exact hp
      have h2 : (applyOp m (.add q r)).history = mkHist 0 (ps ++ [(q, r)]) := by
        rw [hstep, mkHist_append]
        simp [hh, hq]
      have h3 : (applyOp m (.add q r)).query_count = (ps ++ [(q, r)]).length := by
        rw [hstep]
        simp [hq]
      have := ih (ps ++ [(q, r)]) (applyOp m (.add q r)) h1 h2 h3
      simpa [runOps, List.foldl_cons] using this
    | clear =>
      have h1 : (applyOp m .clear).persist = true := hp
      have h2 : (applyOp m .clear).history = mkHist 0 [] := rfl
      have h3 : (applyOp m .clear).query_count = ([] : List (String × String)).length := rfl
      have := ih [] (applyOp m .clear) h1 h2 h3
      simpa [runOps, List.foldl_cons] using this

/-- For a non-persisting manager, running any operation sequence keeps the
flag off and the history empty, while adds still raise the counter. -/
lemma runOps_no_persist (ops : List MemOp) :
    ∀ m : MemoryManager, m.persist = false → m.history = [] →
      (runOps m ops).persist = false ∧ (runOps m ops).history = [] := by
  induction ops with
  | nil => intro m hp hh; exact ⟨hp, hh⟩
  | cons op ops ih =>
    intro m hp hh
    cases op with
    | add q r =>
      have h1 : (applyOp m (.add q r)).persist = false := hp
      have h2 : (applyOp m (.add q r)).history = [] := by
        simp [applyOp, add_exchange, hp, hh]
      have := ih (applyOp m (.add q r)) h1 h2
      simpa [runOps, List.foldl_cons] using this
    | clear =>
      have := ih (applyOp m .clear) hp rfl
      simpa [runOps, List.foldl_cons] using this

lemma foldl_add_only (calls : List (String × String)) :
    ∀ m : MemoryManager,
      (calls.foldl (fun m pr => add_exchange m pr.1 pr.2) m).query_count =
        m.query_count + calls.length ∧
      (calls.foldl (fun m pr => add_exchange m pr.1 pr.2) m).persist = m.persist ∧
      ((calls.foldl (fun m pr => add_exchange m pr.1 pr.2) m).persist = false →
        (calls.foldl (fun m pr => add_exchange m pr.1 pr.2) m).history = m.history) := by
  induction calls with
  | nil => intro m; exact ⟨rfl, rfl, fun _ => rfl⟩
  | cons c calls ih =>
    intro m
    obtain ⟨hq, hp, hh⟩ := ih (add_exchange m c.1 c.2)
    refine ⟨?_, ?_, ?_⟩
    · rw [List.foldl_cons, hq]; simp [add_exchange]; omega
    · rw [List.foldl_cons, hp]; rfl
    · intro hfalse
      rw [List.foldl_cons, hh hfalse]
      have : m.persist = false := by
        rw [List.foldl_cons, hp] at hfalse; exact hfalse
      simp [add_exchange, this]

/-- Claim C2: for a `MemoryManager` constructed with `persist = False`,
after any finite sequence of `add_exchange` calls, `get_context` returns
the empty sequence, and the internal query counter equals the total
number of `add_exchange` calls made. -/
theorem c2_no_persist_context_empty_counter_counts
    (calls : List (String × String)) :
    get_context
        (calls.foldl (fun m pr => add_exchange m pr.1 pr.2)
          (mkMemoryManager false)) = [] ∧
    (calls.foldl (fun m pr => add_exchange m pr.1 pr.2)
        (mkMemoryManager false)).query_count = calls.length := by
  obtain ⟨hq, hp, _⟩ := foldl_add_only calls (mkMemoryManager false)
  have hfalse :
      (calls.foldl (fun m pr => add_exchange m pr.1 pr.2)
        (mkMemoryManager false)).persist = false := by
    simpa [mkMemoryManager] using hp
  constructor
  · simp [get_context, hfalse]
  · simpa [mkMemoryManager] using hq

/-- Claim C3: for a `MemoryManager` constructed with `persist = True`,
after any sequence of `add_exchange` and `clear` calls, `get_context`
returns exactly the exchanges added since the most recent `clear` (or
since construction), in call order, with the given query/response pairs
and query numbers 1, 2, ... ; and `clear` resets both the stored sequence
and the query counter.  (`mkHist 0 ps` is the list of exchanges for the
pairs `ps` in order, numbered from 1.) -/
theorem c3_persist_context_matches_adds_since_clear (ops : List MemOp) :
    get_context (runOps (mkMemoryManager true) ops) =
      mkHist 0 (addsSinceLastClear ops) ∧
    (get_context (runOps (mkMemoryManager true) ops)).length =
      (addsSinceLastClear ops).length ∧
    ∀ m : MemoryManager, (clearMemory m).history = [] ∧
      (clearMemory m).query_count = 0 := by
  obtain ⟨hp, hh, _⟩ :=
    runOps_persist_spec ops [] (mkMemoryManager true) rfl rfl rfl
  have hctx : get_context (runOps (mkMemoryManager true) ops) =
      mkHist 0 (addsSinceLastClear ops) := by
    rw [get_context, if_pos hp, hh]; rfl
  exact ⟨hctx, by rw [hctx, mkHist_length], fun m => ⟨rfl, rfl⟩⟩

/-- Claim C10: after any sequence of construction, `add_exchange` and
`clear` operations, the stored history length never exceeds the query
counter (so `get_summary_stats` always reports
`stored_exchanges ≤ total_queries`); with `persist = True` the two are
equal and the stored exchanges carry query numbers 1, 2, ...,
`query_count` in storage order. -/
theorem c10_history_bounded_by_counter (persist : Bool) (ops : List MemOp) :
    (runOps (mkMemoryManager persist) ops).history.length ≤
      (runOps (mkMemoryManager persist) ops).query_count ∧
    (get_summary_stats (runOps (mkMemoryManager persist) ops)).stored_exchanges ≤
      (get_summary_stats (runOps (mkMemoryManager persist) ops)).total_queries ∧
    (runOps (mkMemoryManager true) ops).history.length =
      (runOps (mkMemoryManager true) ops).query_count ∧
    (runOps (mkMemoryManager true) ops).history.map (fun e => e.query_number) =
      List.range' 1 ((runOps (mkMemoryManager true) ops).query_count) := by
  obtain ⟨_, hh, hq⟩ :=
    runOps_persist_spec ops [] (mkMemoryManager true) rfl rfl rfl
  have htrue : (runOps (mkMemoryManager true) ops).history.length =
      (runOps (mkMemoryManager true) ops).query_count := by
    rw [hh, hq, mkHist_length]
  have hmap : (runOps (mkMemoryManager true) ops).history.map
      (fun e => e.query_number) =
      List.range' 1 ((runOps (mkMemoryManager true) ops).query_count) := by
    rw [hh, hq, mkHist_map_query_number]
  have hle : (runOps (mkMemoryManager persist) ops).history.length ≤
      (runOps (mkMemoryManager persist) ops).query_count := by
    cases persist with
    | false =>
      obtain ⟨_, hempty⟩ :=
        runOps_no_persist ops (mkMemoryManager false) rfl rfl
      simp [hempty]
    | true => exact le_of_eq htrue
  exact ⟨hle, hle, htrue, hmap⟩

/-- Claim C7: for every query index `i`, the prompt sent is the `i`-th
entry of the shuffled pool, with the literal prefix
`"[This is query i+1] "` prepended exactly when
`condition.temporal_markers` is true and `i > 0`; and when
`condition.metacognitive_prompting` is true, `i % 5 = 4` and the
configured metacognitive-prompt list is non-empty, the prompt is replaced
entirely by an entry of that list. -/
theorem c7_prompt_assembly (cond : Condition) (metacogPrompts : List String)
    (choose : Nat → List String → String) (shuffled : List String) (i : Nat)
    (hi : i < shuffled.length)
    (hchoose : ∀ j l, l ≠ [] → choose j l ∈ l) :
    (¬(cond.metacognitive_prompting = true ∧ i % 5 = 4 ∧ metacogPrompts ≠ []) →
      assemblePrompt cond metacogPrompts choose shuffled i =
        if cond.temporal_markers = true ∧ 0 < i then
          "[This is query " ++ toString (i + 1) ++ "] " ++ shuffled.get ⟨i, hi⟩
        else shuffled.get ⟨i, hi⟩) ∧
    ((cond.metacognitive_prompting = true ∧ i % 5 = 4 ∧ metacogPrompts ≠ []) →
      assemblePrompt cond metacogPrompts choose shuffled i ∈ metacogPrompts) := by
  have hgetD : shuffled.getD i "" = shuffled.get ⟨i, hi⟩ := by
    simp [List.getD_eq_getElem?_getD, List.getElem?_eq_getElem hi]
  constructor
  · intro hnot
    rw [assemblePrompt, if_neg hnot, hgetD]
  · intro hyes
    rw [assemblePrompt, if_pos hyes]
    exact hchoose i metacogPrompts hyes.2.2

/-- Witness for C7, matching Scenario 2 of the spec: condition
`full_meta`, metacognitive prompt list with the single entry
`"What are you noticing right now?"`, query index 4 — the assembled
prompt is that metacognitive prompt, regardless of the sampled pool. -/
theorem c7_prompt_assembly_witness :
    (4 < ([ "p1", "p2", "p3", "p4", "p5" ] : List String).length) ∧
    assemblePrompt FULL_META [ "What are you noticing right now?" ]
        (fun _ l => l.headD "") [ "p1", "p2", "p3", "p4", "p5" ] 4 ∈
      [ "What are you noticing right now?" ] := by
  refine ⟨by decide, ?_⟩
  have hchoose : ∀ (j : Nat) (l : List String), l ≠ [] →
      (fun (_ : Nat) (l : List String) => l.headD "") j l ∈ l := by
    intro j l hl
    cases l with
    | nil => exact absurd rfl hl
    | cons a t => exact List.mem_cons_self a t
  exact (c7_prompt_assembly FULL_META [ "What are you noticing right now?" ]
    (fun _ l => l.headD "") [ "p1", "p2", "p3", "p4", "p5" ] 4 (by decide)
    hchoose).2 (by decide)

/-- When some call fails at index `i₀` and every other call succeeds, the
cross-architecture loop skips `i₀` and produces records exactly for the
other indices, counting one failure per skipped index. -/
lemma runCrossAux_skip (model : ModelOracle) (cond : Condition)
    (metacogPrompts : List String) (choose : Nat → List String → String)
    (shuffled : List String) (modelName : String) (i₀ : Nat)
    (hfail : ∀ p c, model i₀ p c = none)
    (hok : ∀ j, j ≠ i₀ → ∀ p c, (model j p c).isSome) :
    ∀ (fuel i : Nat) (mem : MemoryManager),
      (runCrossAux model cond metacogPrompts choose shuffled modelName i mem
          fuel).1.map (fun r => r.query_number) =
        ((List.range' i fuel).filter (fun j => j ≠ i₀)).map (fun j => j + 1) ∧
      (runCrossAux model cond metacogPrompts choose shuffled modelName i mem
          fuel).2.1 =
        (runCrossAux model cond metacogPrompts choose shuffled modelName i mem
          fuel).1.length ∧
      (runCrossAux model cond metacogPrompts choose shuffled modelName i mem
          fuel).2.1 +
        (runCrossAux model cond metacogPrompts choose shuffled modelName i mem
          fuel).2.2 = fuel := by
  intro fuel
  induction fuel with
  | zero => intro i mem; simp [runCrossAux]
  | succ fuel ih =>
    intro i mem
    by_cases hi : i = i₀
    · subst hi
      have hnone := hfail (assemblePrompt cond metacogPrompts choose shuffled i)
        (if cond.memory_persistence then some (get_context mem) else none)
      obtain ⟨ihmap, ihlen, ihsum⟩ := ih (i + 1) mem
      refine ⟨?_, ?_, ?_⟩
      · simp only [runCrossAux, hnone, List.range']
        rw [List.filter_cons_of_neg (by simp)]
        exact ihmap
      · simp only [runCrossAux, hnone]
        exact ihlen
      · simp only [runCrossAux, hnone]
        omega
    · have hsome := hok i hi
        (assemblePrompt cond metacogPrompts choose shuffled i)
        (if cond.memory_persistence then some (get_context mem) else none)
      obtain ⟨resp, hresp⟩ := Option.isSome_iff_exists.mp hsome
      obtain ⟨ihmap, ihlen, ihsum⟩ := ih (i + 1)
        (add_exchange mem (assemblePrompt cond metacogPrompts choose shuffled i)
          resp)
      refine ⟨?_, ?_, ?_⟩
      · simp only [runCrossAux, hresp, List.range']
        rw [List.filter_cons_of_pos (by simp [hi])]
        simp only [List.map_cons, ihmap]
      · simp only [runCrossAux, hresp, List.map_cons, List.length_cons]
        rw [ihlen]
      · simp only [runCrossAux, hresp]
        omega

/-- When the call at index `i₀` fails, the scaled-pilot loop reaching any
window containing `i₀` aborts with `none` (the exception is uncaught). -/
lemma runScaledAux_abort (model : ModelOracle) (cond : Condition)
    (metacogPrompts : List String) (choose : Nat → List String → String)
    (shuffled : List String) (i₀ : Nat)
    (hfail : ∀ p c, model i₀ p c = none) :
    ∀ (fuel i : Nat) (mem : MemoryManager), i ≤ i₀ → i₀ < i + fuel →
      runScaledAux model cond metacogPrompts choose shuffled i mem fuel =
        none := by
  intro fuel
  induction fuel with
  | zero => intro i mem hle hlt; omega
  | succ fuel ih =>
    intro i mem hle hlt
    by_cases hi : i = i₀
    · subst hi
      have hnone := hfail (assemblePrompt cond metacogPrompts choose shuffled i)
        (if cond.memory_persistence then some (get_context mem) else none)
      simp [runScaledAux, hnone]
    · have hi' : i < i₀ := lt_of_le_of_ne hle hi
      cases hcall : model i (assemblePrompt cond metacogPrompts choose shuffled i)
          (if cond.memory_persistence then some (get_context mem) else none) with
      | none => simp [runScaledAux, hcall]
      | some resp =>
        have := ih (i + 1)
          (add_exchange mem
            (assemblePrompt cond metacogPrompts choose shuffled i) resp)
          (by omega) (by omega)
        simp [runScaledAux, hcall, this]

/-- Counterexample to claim C4 as stated: the claim asserts that, for
EVERY run-orchestration entry point, a failed query is logged and
skipped and the run continues.  `run_scaled_pilot.run_condition` has no
per-query `try/except`: with a model whose call at index 1 raises and
all other calls succeeding, the scaled run aborts (`none`), producing no
records at all — while the cross-architecture run over the same oracle
continues and records queries 1 and 3. -/
theorem c4_counterexample :
    runConditionScaled (fun i _ _ => if i = 1 then none else some "ok")
        BASELINE "init" [] (fun _ l => l.headD "") [ "a", "b", "c" ]
        (some "ok") 3 = none ∧
    (runConditionCross (fun i _ _ => if i = 1 then none else some "ok")
        BASELINE "init" [] (fun _ l => l.headD "") [ "a", "b", "c" ]
        "claude" (some "ok") 3).1.map (fun r => r.query_number) = [1, 3] := by
  constructor <;> rfl

/-- Claim C4 (amended): in `run_cross_architecture.run_condition`, when
the model query at a single index `i₀` raises and every other query
succeeds, the run produces no record for `i₀` (no placeholder), skips
it, continues with the remaining indices and never aborts, with
successes and failures summing to `n`; `run_scaled_pilot.run_condition`
lacks this protection and the same failure aborts its whole run. -/
theorem c4_amended_per_query_failure (model : ModelOracle) (cond : Condition)
    (initialPrompt : String) (metacogPrompts : List String)
    (choose : Nat → List String → String) (shuffled : List String)
    (modelName : String) (framingResp : Option String) (n i₀ : Nat)
    (h0 : i₀ < n) (hfail : ∀ p c, model i₀ p c = none)
    (hok : ∀ j, j ≠ i₀ → ∀ p c, (model j p c).isSome) :
    (runConditionCross model cond initialPrompt metacogPrompts choose shuffled
        modelName framingResp n).1.map (fun r => r.query_number) =
      ((List.range n).filter (fun j => j ≠ i₀)).map (fun j => j + 1) ∧
    (i₀ + 1) ∉ (runConditionCross model cond initialPrompt metacogPrompts
        choose shuffled modelName framingResp n).1.map
        (fun r => r.query_number) ∧
    (runConditionCross model cond initialPrompt metacogPrompts choose shuffled
        modelName framingResp n).2.1 =
      (runConditionCross model cond initialPrompt metacogPrompts choose
        shuffled modelName framingResp n).1.length ∧
    (runConditionCross model cond initialPrompt metacogPrompts choose shuffled
        modelName framingResp n).2.1 +
      (runConditionCross model cond initialPrompt metacogPrompts choose
        shuffled modelName framingResp n).2.2 = n ∧
    runConditionScaled model cond initialPrompt metacogPrompts choose shuffled
      framingResp n = none := by
  obtain ⟨hmap, hlen, hsum⟩ := runCrossAux_skip model cond metacogPrompts
    choose shuffled modelName i₀ hfail hok n 0
    (initialMemoryCross cond initialPrompt framingResp)
  have hmap' : (runConditionCross model cond initialPrompt metacogPrompts
      choose shuffled modelName framingResp n).1.map (fun r => r.query_number) =
      ((List.range n).filter (fun j => j ≠ i₀)).map (fun j => j + 1) := by
    rw [runConditionCross, hmap, List.range_eq_range']
  refine ⟨hmap', ?_, hlen, hsum, ?_⟩
  · rw [hmap']
    intro hmem
    simp only [List.mem_map, List.mem_filter, List.mem_range] at hmem
    obtain ⟨j, ⟨_, hj⟩, hj1⟩ := hmem
    simp only [decide_eq_true_eq] at hj
    omega
  · cases hmem : initialMemoryScaled cond initialPrompt framingResp with
    | none => simp [runConditionScaled, hmem]
    | some mem =>
      have habort := runScaledAux_abort model cond metacogPrompts choose
        shuffled i₀ hfail n 0 mem (Nat.zero_le i₀) (by omega)
      simp [runConditionScaled, hmem, habort]

/-- Witness for the amended C4: a concrete oracle failing only at index
1, run for three queries — the cross run records queries 1 and 3 and the
scaled run aborts. -/
theorem c4_amended_per_query_failure_witness :
    (1 < 3) ∧
    ((runConditionCross (fun i _ _ => if i = 1 then none else some "ok")
        BASELINE "init" [] (fun _ l => l.headD "") [ "a", "b", "c" ]
        "claude" (some "ok") 3).1.map (fun r => r.query_number) =
      ((List.range 3).filter (fun j => j ≠ 1)).map (fun j => j + 1) ∧
    runConditionScaled (fun i _ _ => if i = 1 then none else some "ok")
        BASELINE "init" [] (fun _ l => l.headD "") [ "a", "b", "c" ]
        (some "ok") 3 = none) := by
  refine ⟨by decide, ?_⟩
  have h := c4_amended_per_query_failure
    (fun i _ _ => if i = 1 then none else some "ok") BASELINE "init" []
    (fun _ l => l.headD "") [ "a", "b", "c" ] "claude" (some "ok") 3 1
    (by decide) (fun p c => rfl)
    (fun j hj p c => by
      show (if j = 1 then none else some "ok" : Option String).isSome = true
      rw [if_neg hj]; rfl)
  exact ⟨h.1, h.2.2.2.2⟩

lemma ratesFloat_eq_none (f : Metric → Nat) (ms : List Metric)
    (h : ∃ m ∈ ms, m.word_count = 0) : ratesFloat f ms = none := by
  induction ms with
  | nil => obtain ⟨m, hm, _⟩ := h; exact absurd hm (List.not_mem_nil m)
  | cons x xs ih =>
    obtain ⟨m, hm, hwc⟩ := h
    rcases List.mem_cons.mp hm with hx | hxs
    · subst hx
      simp [ratesFloat, rateFloat, hwc]
    · have hxs' := ih ⟨m, hxs, hwc⟩
      cases hhead : rateFloat (f x) x.word_count with
      | none => simp [ratesFloat, hhead]
      | some v => simp [ratesFloat, hhead, hxs']

lemma ratesFloat_eq_some (f : Metric → Nat) (ms : List Metric)
    (h : ∀ m ∈ ms, m.word_count ≠ 0) :
    ratesFloat f ms =
      some (ms.map (fun m => (f m : ℚ) / (m.word_count : ℚ) * 100)) := by
  induction ms with
  | nil => rfl
  | cons x xs ih =>
    have hx : x.word_count ≠ 0 := h x (List.mem_cons_self x xs)
    have hxs := ih (fun m hm => h m (List.mem_cons_of_mem x hm))
    simp [ratesFloat, rateFloat, hx, hxs]

/-- Counterexample to claim C1 as stated: the claim asserts that a group
containing a record with zero-word response text is aggregated with that
record excluded from the rate means.  In the source the rate list
comprehensions divide by `word_count` unconditionally, so aggregating a
group containing the empty-response record fails with a division fault
instead of succeeding. -/
theorem c1_counterexample :
    count_words "" = 0 ∧
    analyze_condition [metricEmptyResponse, metricTwoWords] = none := by
  constructor
  · rfl
  · rfl

/-- Claim C1 (amended): the aggregation layer computes
`count / word_count * 100` for every record with no guard, so a group
containing a record whose response has `word_count = 0` fails with a
division fault (no record is excluded); a non-empty group whose records
all have positive word counts aggregates successfully. -/
theorem c1_amended_zero_word_count_faults (ms : List Metric) :
    ((∃ m ∈ ms, m.word_count = 0) → analyze_condition ms = none) ∧
    ((ms ≠ [] ∧ ∀ m ∈ ms, m.word_count ≠ 0) →
      (analyze_condition ms).isSome) := by
  constructor
  · intro h
    have hne : ms ≠ [] := by
      intro hnil
      subst hnil
      obtain ⟨m, hm, _⟩ := h
      exact absurd hm (List.not_mem_nil m)
    have hmean : ∀ g : Metric → ℚ,
        meanFloat (ms.map g) = some (listMean (ms.map g)) := by
      intro g
      rw [meanFloat, if_neg (by simp [hne])]
    have hnone := ratesFloat_eq_none (fun m => m.self_references) ms h
    simp [analyze_condition, hmean, hnone]
  · rintro ⟨hne, hpos⟩
    have hmean : ∀ g : Metric → ℚ,
        meanFloat (ms.map g) = some (listMean (ms.map g)) := by
      intro g
      rw [meanFloat, if_neg (by simp [hne])]
    have hrates : ∀ f : Metric → Nat,
        ratesFloat f ms =
          some (ms.map (fun m => (f m : ℚ) / (m.word_count : ℚ) * 100)) :=
      fun f => ratesFloat_eq_some f ms hpos
    have hmeanr : ∀ f : Metric → Nat,
        meanFloat (ms.map (fun m => (f m : ℚ) / (m.word_count : ℚ) * 100)) =
          some (listMean
            (ms.map (fun m => (f m : ℚ) / (m.word_count : ℚ) * 100))) := by
      intro f
      rw [meanFloat, if_neg (by simp [hne])]
    simp [analyze_condition, hmean, hrates, hmeanr]

/-- Witness for the amended C1: the two-record group with one
empty-response record makes the aggregation fail. -/
theorem c1_amended_zero_word_count_faults_witness :
    (∃ m ∈ [metricEmptyResponse, metricTwoWords], m.word_count = 0) ∧
    analyze_condition [metricEmptyResponse, metricTwoWords] = none := by
  refine ⟨⟨metricEmptyResponse, by decide, by decide⟩, ?_⟩
  exact (c1_amended_zero_word_count_faults
    [metricEmptyResponse, metricTwoWords]).1
    ⟨metricEmptyResponse, by decide, by decide⟩

lemma svar_nonneg (l : List ℚ) (h : 2 ≤ l.length) : 0 ≤ svar l := by
  rw [svar]
  apply div_nonneg
  · apply List.sum_nonneg
    intro x hx
    obtain ⟨y, _, rfl⟩ := List.mem_map.mp hx
    positivity
  · have : (2 : ℚ) ≤ (l.length : ℚ) := by exact_mod_cast h
    linarith

lemma pooledVar_nonneg (a b : List ℚ) (ha : 2 ≤ a.length)
    (hb : 2 ≤ b.length) : 0 ≤ pooledVar a b := by
  have ha' : (2 : ℚ) ≤ (a.length : ℚ) := by exact_mod_cast ha
  have hb' : (2 : ℚ) ≤ (b.length : ℚ) := by exact_mod_cast hb
  rw [pooledVar]
  apply div_nonneg
  · have h1 := svar_nonneg a ha
    have h2 := svar_nonneg b hb
    have : (0 : ℚ) ≤ ((a.length : ℚ) - 1) * svar a :=
      mul_nonneg (by linarith) h1
    have : (0 : ℚ) ≤ ((b.length : ℚ) - 1) * svar b :=
      mul_nonneg (by linarith) h2
    linarith
  · linarith

lemma pooledVar_comm (a b : List ℚ) : pooledVar a b = pooledVar b a := by
  rw [pooledVar, pooledVar,
    add_comm (((a.length : ℚ) - 1) * svar a) (((b.length : ℚ) - 1) * svar b),
    add_comm ((a.length : ℚ)) ((b.length : ℚ))]

lemma pooledVarFloat_eq (a b : List ℚ) (ha : 2 ≤ a.length)
    (hb : 2 ≤ b.length) : pooledVarFloat a b = some (pooledVar a b) := by
  have ha' : ¬ a.length < 2 := by omega
  have hb' : ¬ b.length < 2 := by omega
  simp [pooledVarFloat, svarFloat, ha', hb', pooledVar]

lemma sqrt_pooledVar_ne_zero (a b : List ℚ) (ha : 2 ≤ a.length)
    (hb : 2 ≤ b.length) (hpv : pooledVar a b ≠ 0) :
    Real.sqrt ((pooledVar a b : ℚ) : ℝ) ≠ 0 := by
  have hpos : (0 : ℚ) < pooledVar a b :=
    lt_of_le_of_ne (pooledVar_nonneg a b ha hb) (Ne.symm hpv)
  have : (0 : ℝ) < ((pooledVar a b : ℚ) : ℝ) := by exact_mod_cast hpos
  exact ne_of_gt (Real.sqrt_pos.mpr this)

lemma cohens_d_cross_eq (a b : List ℚ) (ha : 2 ≤ a.length)
    (hb : 2 ≤ b.length) (hpv : pooledVar a b ≠ 0) :
    cohens_d_cross a b =
      (((listMean a : ℚ) : ℝ) - ((listMean b : ℚ) : ℝ)) /
        Real.sqrt ((pooledVar a b : ℚ) : ℝ) := by
  have hlen : ¬(a.length < 2 ∨ b.length < 2) := by omega
  have hsqrt := sqrt_pooledVar_ne_zero a b ha hb hpv
  rw [cohens_d_cross, if_neg hlen, if_neg hsqrt]

lemma cohens_d_tests_eq (a b : List ℚ) (ha : 2 ≤ a.length)
    (hb : 2 ≤ b.length) (hpv : pooledVar a b ≠ 0) :
    cohens_d_tests a b =
      some ((((listMean a : ℚ) : ℝ) - ((listMean b : ℚ) : ℝ)) /
        Real.sqrt ((pooledVar a b : ℚ) : ℝ)) := by
  have hsqrt := sqrt_pooledVar_ne_zero a b ha hb hpv
  rw [cohens_d_tests, pooledVarFloat_eq a b ha hb]
  simp [floatDiv, hsqrt]

/-- Counterexample to claim C5 as stated: the claim asserts that EVERY
`cohens_d` implementation in the repository returns exactly 0 when a
group has fewer than 2 samples.  The implementation in
`scripts/statistical_tests.py` has no such guard: with a one-element
first group the sample variance and hence the result is `nan` (modelled
`none`), not 0. -/
theorem c5_counterexample :
    cohens_d_tests [1] [2, 3] = none ∧
    cohens_d_tests [1] [2, 3] ≠ some 0 := by
  have h : cohens_d_tests [1] [2, 3] = none := by
    simp [cohens_d_tests, pooledVarFloat, svarFloat]
  exact ⟨h, by simp [h]⟩

/-- Claim C5 (amended): the `cohens_d` of
`scripts/statistical_cross_arch.py` returns exactly 0 when either group
has fewer than 2 samples or the pooled standard deviation is 0, and
otherwise the pooled-SD standardized mean difference; the `cohens_d` of
`scripts/statistical_tests.py` returns the standardized mean difference
only when both groups have at least 2 samples and the pooled standard
deviation is non-zero, and otherwise yields an undefined floating value
(`nan`/`inf`, modelled `none`), not 0. -/
theorem c5_amended_guards_only_cross (a b : List ℚ) :
    (a.length < 2 ∨ b.length < 2 →
      cohens_d_cross a b = 0 ∧ cohens_d_tests a b = none) ∧
    (2 ≤ a.length → 2 ≤ b.length → pooledVar a b = 0 →
      cohens_d_cross a b = 0 ∧ cohens_d_tests a b = none) ∧
    (2 ≤ a.length → 2 ≤ b.length → pooledVar a b ≠ 0 →
      cohens_d_cross a b =
        (((listMean a : ℚ) : ℝ) - ((listMean b : ℚ) : ℝ)) /
          Real.sqrt ((pooledVar a b : ℚ) : ℝ) ∧
      cohens_d_tests a b = some (cohens_d_cross a b)) := by
  refine ⟨?_, ?_, ?_⟩
  · intro h
    constructor
    · rw [cohens_d_cross, if_pos h]
    · rcases h with h | h
      · have : svarFloat a = none := by simp [svarFloat, h]
        simp [cohens_d_tests, pooledVarFloat, this]
      · have : svarFloat b = none := by simp [svarFloat, h]
        simp [cohens_d_tests, pooledVarFloat, this]
  · intro ha hb hpv
    have hlen : ¬(a.length < 2 ∨ b.length < 2) := by omega
    have hsqrt : Real.sqrt ((pooledVar a b : ℚ) : ℝ) = 0 := by
      rw [hpv]; simp
    constructor
    · rw [cohens_d_cross, if_neg hlen, if_pos hsqrt]
    · rw [cohens_d_tests, pooledVarFloat_eq a b ha hb]
      simp [floatDiv, hsqrt]
  · intro ha hb hpv
    have hcross := cohens_d_cross_eq a b ha hb hpv
    refine ⟨hcross, ?_⟩
    rw [cohens_d_tests_eq a b ha hb hpv, hcross]

/-- Witness for the amended C5: concrete one-element first group — the
guarded implementation returns 0 and the unguarded one has no defined
result. -/
theorem c5_amended_guards_only_cross_witness :
    (([ (1 : ℚ) ] : List ℚ).length < 2 ∨ ([ 2, 3 ] : List ℚ).length < 2) ∧
    (cohens_d_cross [1] [2, 3] = 0 ∧ cohens_d_tests [1] [2, 3] = none) :=
  ⟨by decide,
    (c5_amended_guards_only_cross [1] [2, 3]).1 (by decide)⟩

/-- Claim C6: for any two sample lists with at least 2 elements each and
non-zero pooled variance, the Cohen effect size is antisymmetric in its
arguments — for both implementations in the repository. -/
theorem c6_cohens_d_antisymmetric (a b : List ℚ) (ha : 2 ≤ a.length)
    (hb : 2 ≤ b.length) (hpv : pooledVar a b ≠ 0) :
    cohens_d_cross a b = -cohens_d_cross b a ∧
    ∃ d : ℝ, cohens_d_tests a b = some d ∧
      cohens_d_tests b a = some (-d) := by
  have hpv' : pooledVar b a ≠ 0 := by rw [pooledVar_comm]; exact hpv
  have hab := cohens_d_cross_eq a b ha hb hpv
  have hba := cohens_d_cross_eq b a hb ha hpv'
  have hcomm : ((pooledVar b a : ℚ) : ℝ) = ((pooledVar a b : ℚ) : ℝ) := by
    rw [pooledVar_comm]
  have hneg :
      (((listMean a : ℚ) : ℝ) - ((listMean b : ℚ) : ℝ)) /
          Real.sqrt ((pooledVar a b : ℚ) : ℝ) =
        -((((listMean b : ℚ) : ℝ) - ((listMean a : ℚ) : ℝ)) /
          Real.sqrt ((pooledVar a b : ℚ) : ℝ)) := by
    ring
  constructor
  · rw [hab, hba, hcomm, hneg]
  · refine ⟨cohens_d_cross a b, ?_, ?_⟩
    · rw [cohens_d_tests_eq a b ha hb hpv, hab]
    · rw [cohens_d_tests_eq b a hb ha hpv', hab, hcomm, hneg, neg_neg]

/-- Witness for C6: two concrete three-element groups with pooled
variance 1. -/
theorem c6_cohens_d_antisymmetric_witness :
    (2 ≤ ([ 0, 1, 2 ] : List ℚ).length) ∧
    (2 ≤ ([ 5, 6, 7 ] : List ℚ).length) ∧
    pooledVar [0, 1, 2] [5, 6, 7] ≠ 0 ∧
    (cohens_d_cross [0, 1, 2] [5, 6, 7] =
        -cohens_d_cross [5, 6, 7] [0, 1, 2] ∧
      ∃ d : ℝ, cohens_d_tests [0, 1, 2] [5, 6, 7] = some d ∧
        cohens_d_tests [5, 6, 7] [0, 1, 2] = some (-d)) := by
  have hpv : pooledVar [0, 1, 2] [5, 6, 7] ≠ 0 := by
    norm_num [pooledVar, svar, listMean]
  exact ⟨by decide, by decide, hpv,
    c6_cohens_d_antisymmetric [0, 1, 2] [5, 6, 7] (by decide) (by decide) hpv⟩

lemma mem_eraseDups_loop {α : Type} [BEq α] [LawfulBEq α] (x : α) :
    ∀ (as bs : List α),
      x ∈ List.eraseDups.loop as bs ↔ x ∈ as ∨ x ∈ bs := by
  intro as
  induction as with
  | nil => intro bs; simp [List.eraseDups.loop]
  | cons a as ih =>
    intro bs
    rw [List.eraseDups.loop]
    cases helem : bs.elem a with
    | true =>
      have ha : a ∈ bs := List.mem_of_elem_eq_true helem
      rw [ih bs, List.mem_cons]
      constructor
      · tauto
      · intro h
        rcases h with (hxa | h) | h
        · subst hxa; exact Or.inr ha
        · tauto
        · tauto
    | false =>
      rw [ih (a :: bs), List.mem_cons, List.mem_cons]
      tauto

lemma mem_eraseDups {α : Type} [BEq α] [LawfulBEq α] (x : α) (l : List α) :
    x ∈ l.eraseDups ↔ x ∈ l := by
  rw [List.eraseDups]
  rw [mem_eraseDups_loop x l []]
  simp

lemma mem_cellsOf (l : List RawRecord) (m c : String) :
    (m, c) ∈ cellsOf l ↔
      ∃ r ∈ l, r.model = some m ∧ r.condition = some c := by
  rw [cellsOf, mem_eraseDups, List.mem_filterMap]
  constructor
  · intro ⟨r, hr, hmc⟩
    refine ⟨r, hr, ?_⟩
    cases hm : r.model with
    | none => rw [hm] at hmc; simp at hmc
    | some m' =>
      cases hc : r.condition with
      | none => rw [hm, hc] at hmc; simp at hmc
      | some c' =>
        rw [hm, hc] at hmc
        simp only [Option.some.injEq, Prod.mk.injEq] at hmc
        obtain ⟨h1, h2⟩ := hmc
        subst h1; subst h2
        exact ⟨rfl, rfl⟩
  · intro ⟨r, hr, hm, hc⟩
    exact ⟨r, hr, by rw [hm, hc]⟩

/-- Claim C8: merging two Result Record arrays concatenates them (first
file followed by second, so the length is the sum), and flags a
sample-size warning for exactly those (model, condition) cells occurring
in the combined data whose count differs from the expected 20. -/
theorem c8_merge_concats_and_flags (d1 d2 : List RawRecord)
    (h : ∀ r ∈ d1 ++ d2, r.model.isSome ∧ r.condition.isSome) :
    ∃ warns, mergeDataFiles d1 d2 = some (d1 ++ d2, warns) ∧
      (d1 ++ d2).length = d1.length + d2.length ∧
      ∀ m c, (m, c) ∈ warns ↔
        (∃ r ∈ d1 ++ d2, r.model = some m ∧ r.condition = some c) ∧
          cellCount (d1 ++ d2) m c ≠ 20 := by
  have hall : (d1 ++ d2).all
      (fun r => r.model.isSome ∧ r.condition.isSome) = true := by
    rw [List.all_eq_true]
    intro r hr
    simpa using h r hr
  refine ⟨(cellsOf (d1 ++ d2)).filter
      (fun mc => cellCount (d1 ++ d2) mc.1 mc.2 ≠ 20), ?_, ?_, ?_⟩
  · rw [mergeDataFiles, if_pos hall]
  · exact List.length_append d1 d2
  · intro m c
    rw [List.mem_filter, ← mem_cellsOf]
    simp

/-- Witness for C8, matching Scenario 4 of the spec: merging the file
with cell counts (ModelA, baseline) = 20, (ModelA, full_meta) = 18 and
the file with 20 records per ModelB cell yields 78 records and flags
exactly the (ModelA, full_meta) cell. -/
theorem c8_merge_concats_and_flags_witness :
    (∀ r ∈ scenarioFile1 ++ scenarioFile2,
      r.model.isSome ∧ r.condition.isSome) ∧
    (∃ warns, mergeDataFiles scenarioFile1 scenarioFile2 =
        some (scenarioFile1 ++ scenarioFile2, warns) ∧
      (scenarioFile1 ++ scenarioFile2).length =
        scenarioFile1.length + scenarioFile2.length ∧
      ∀ m c, (m, c) ∈ warns ↔
        (∃ r ∈ scenarioFile1 ++ scenarioFile2,
          r.model = some m ∧ r.condition = some c) ∧
          cellCount (scenarioFile1 ++ scenarioFile2) m c ≠ 20) ∧
    (scenarioFile1 ++ scenarioFile2).length = 78 ∧
    mergeDataFiles scenarioFile1 scenarioFile2 =
      some (scenarioFile1 ++ scenarioFile2,
        [ ("ModelA", "full_meta") ]) := by
  refine ⟨by decide, ?_, by decide, by decide⟩
  exact c8_merge_concats_and_flags scenarioFile1 scenarioFile2 (by decide)

/-- Counterexample to claim C9 as stated: the claim asserts that the
verification utility checks EVERY record for the presence of all six
required fields, reporting each offending record index.  The source
checks only `data[:5]`: in a six-record file whose sixth record (index
5) is missing `timestamp`, no format error is reported and the verdict
passes. -/
theorem c9_counterexample :
    missingOf recMissingTimestamp = [ "timestamp" ] ∧
    verify_data_format verifyScenario =
      some (VerifyOutcome.report 0 [ ("m", "c", 6) ] true) := by
  constructor <;> decide

/-- Claim C9 (amended): the verification utility checks the FIRST FIVE
records for presence of the six required fields, reporting each
offending record index among them and failing early in that case; it
checks every record for an empty or whitespace-only response; and cell
sizes deviating from the expected 20 are reported as warnings only — the
verdict is `true` exactly when no empty response exists, independent of
the cell warnings. -/
theorem c9_amended_first_five_only (data : List RawRecord)
    (hmc : ∀ r ∈ data, r.model.isSome ∧ r.condition.isSome) :
    ∃ res, verify_data_format data = some res ∧
      ((∀ r ∈ data.take 5, missingOf r = []) →
        ∃ e w, res = .report e w (e == 0) ∧
          e = (data.filter isEmptyResponse).length ∧
          (∀ m c k, (m, c, k) ∈ w → cellCount data m c = k ∧ k ≠ 20) ∧
          (∀ m c, (m, c) ∈ cellsOf data → cellCount data m c ≠ 20 →
            (m, c, cellCount data m c) ∈ w)) ∧
      ((∃ r ∈ data.take 5, missingOf r ≠ []) →
        ∃ issues, res = .formatError issues ∧
          ∀ i ms, (i, ms) ∈ issues ↔
            ∃ h5 : i < (data.take 5).length,
              ms = missingOf ((data.take 5).get ⟨i, h5⟩) ∧ ms ≠ []) := by
  have hall : data.all (fun r => r.model.isSome ∧ r.condition.isSome)
      = true := by
    rw [List.all_eq_true]
    intro r hr
    simpa using hmc r hr
  by_cases hiss : (data.take 5).enum.filterMap
      (fun p => if missingOf p.2 = [] then none
        else some (p.1, missingOf p.2)) = []
  · refine ⟨.report ((data.filter isEmptyResponse).length)
      ((cellsOf data).filterMap (fun mc =>
        if cellCount data mc.1 mc.2 = 20 then none
        else some (mc.1, mc.2, cellCount data mc.1 mc.2)))
      (((data.filter isEmptyResponse).length) == 0), ?_, ?_, ?_⟩
    · simp [verify_data_format, hiss, hall]
      intro x hx
      obtain ⟨h1, h2⟩ := hmc x hx
      exact ⟨h1, by simpa [Option.isSome_iff_ne_none] using h2⟩
    · intro _
      refine ⟨(data.filter isEmptyResponse).length, _, rfl, rfl, ?_, ?_⟩
      · intro m c k hk
        rw [List.mem_filterMap] at hk
        obtain ⟨mc, _, hmc'⟩ := hk
        by_cases h20 : cellCount data mc.1 mc.2 = 20
        · rw [if_pos h20] at hmc'; exact absurd hmc' (by simp)
        · rw [if_neg h20] at hmc'
          simp only [Option.some.injEq, Prod.mk.injEq] at hmc'
          obtain ⟨h1, h2, h3⟩ := hmc'
          subst h1; subst h2; subst h3
          exact ⟨rfl, h20⟩
      · intro m c hmem h20
        rw [List.mem_filterMap]
        exact ⟨(m, c), hmem, by rw [if_neg h20]⟩
    · intro ⟨r, hr, hmiss⟩
      exfalso
      obtain ⟨i, hi, hget⟩ := List.mem_iff_getElem.mp hr
      have henum : (i, r) ∈ (data.take 5).enum :=
        List.mk_mem_enum_iff_getElem?.mpr (by
          rw [List.getElem?_eq_getElem hi, hget])
      have := List.filterMap_eq_nil_iff.mp hiss (i, r) henum
      rw [if_neg hmiss] at this
      exact absurd this (by simp)
  · refine ⟨.formatError ((data.take 5).enum.filterMap
      (fun p => if missingOf p.2 = [] then none
        else some (p.1, missingOf p.2))), ?_, ?_, ?_⟩
    · simp [verify_data_format, hiss]
    · intro hclean
      exfalso
      apply hiss
      rw [List.filterMap_eq_nil_iff]
      intro p hp
      obtain ⟨j, x⟩ := p
      have hx := List.mk_mem_enum_iff_getElem?.mp hp
      obtain ⟨hlt, hEq⟩ := List.getElem?_eq_some_iff.mp hx
      have hxin : x ∈ data.take 5 := hEq ▸ List.getElem_mem hlt
      rw [if_pos (hclean x hxin)]
    · intro _
      refine ⟨_, rfl, ?_⟩
      intro i ms
      rw [List.mem_filterMap]
      constructor
      · intro ⟨p, hp, hsome⟩
        obtain ⟨j, x⟩ := p
        by_cases hm : missingOf x = []
        · rw [if_pos hm] at hsome; exact absurd hsome (by simp)
        · rw [if_neg hm] at hsome
          simp only [Option.some.injEq, Prod.mk.injEq] at hsome
          obtain ⟨h1, h2⟩ := hsome
          subst h1
          have hx := List.mk_mem_enum_iff_getElem?.mp hp
          obtain ⟨hlt, hEq⟩ := List.getElem?_eq_some_iff.mp hx
          refine ⟨hlt, ?_, ?_⟩
          · rw [← h2]
            exact (congrArg missingOf hEq).symm
          · rw [← h2]; exact hm
      · intro ⟨h5, hms, hne⟩
        refine ⟨(i, (data.take 5).get ⟨i, h5⟩), ?_, ?_⟩
        · exact List.mk_mem_enum_iff_getElem?.mpr
            (List.getElem?_eq_getElem h5)
        · rw [if_neg (by rw [← hms]; exact hne), hms]

/-- Witness for the amended C9: the six-record scenario file verifies to
a passing report despite its sixth record missing a field. -/
theorem c9_amended_first_five_only_witness :
    (∀ r ∈ verifyScenario, r.model.isSome ∧ r.condition.isSome) ∧
    ∃ res, verify_data_format verifyScenario = some res := by
  obtain ⟨res, hres, -, -⟩ :=
    c9_amended_first_five_only verifyScenario (by decide)
  exact ⟨by decide, res, hres⟩

end SelfConstruction
